import Mathlib

/-!
# OpenSmoothScroll — verification of the interception-and-animation engine

Shallow embedding of the core of the repository:

* `src/config.py` — `ScrollSettings.get_app_settings` (per-app parameter
  resolution);
* `src/smooth_scroll_engine.py` — the easing kernel `custom_ease`, the
  accelerator `_calculate_scroll_amount`, the enqueue paths
  `_add_smooth_scroll_v` / `_add_smooth_scroll_h`, the animation loop
  `_animate_scroll`, the hook callback `_low_level_mouse_proc`, the
  blacklist check `_is_foreground_blacklisted`, the emitter
  `_send_scroll_event`, and the `start` / `_hook_loop` lifecycle.

Python float arithmetic is embedded as exact rational (`ℚ`) arithmetic for
the state-machine claims and as real (`ℝ`) arithmetic for the analytic
claims about the easing kernel.  Fallible operations (starting an OS
thread inside the hook callback) are embedded with `Except`: the Python
source contains no `try`/`except` in `_low_level_mouse_proc`, so an error
raised by a sub-step propagates out of the embedded callback exactly as an
exception propagates out of the Python callback.
-/

/-- Truncation toward zero of a rational, the embedding of Python's
`int(...)` applied to a float (`int()` truncates toward zero). -/
def truncQ (q : ℚ) : ℤ :=
  if 0 ≤ q then ⌊q⌋ else -⌊-q⌋

/-- Python's `str.lower()` (ASCII case folding on the character list). -/
def strLower (s : String) : String := ⟨s.data.map Char.toLower⟩

/-! ## `src/config.py` — settings and per-app parameter resolution -/

/-- The five resolved scroll parameters: the dictionary returned by
`ScrollSettings.get_app_settings` (keys `step_size`, `animation_time`,
`acceleration_delta`, `acceleration_max`, `tail_head_ratio`). -/
structure AppParams where
  step_size : ℤ
  animation_time : ℤ
  acceleration_delta : ℤ
  acceleration_max : ℚ
  tail_head_ratio : ℚ
deriving DecidableEq, Repr

/-- A sparse per-app override: one entry of `per_app_settings`, holding any
subset of the five overridable fields. -/
structure AppOverrides where
  step_size : Option ℤ := none
  animation_time : Option ℤ := none
  acceleration_delta : Option ℤ := none
  acceleration_max : Option ℚ := none
  tail_head_ratio : Option ℚ := none
deriving DecidableEq, Repr

/-- The fields of `ScrollSettings` used by the engine (`src/config.py`,
dataclass `ScrollSettings`).  `per_app_settings` is the dict mapping
lower-cased executable names to sparse overrides, embedded as an
association list. -/
structure ScrollSettings where
  step_size : ℤ := 100
  animation_time : ℤ := 400
  acceleration_delta : ℤ := 50
  acceleration_max : ℚ := 3
  tail_head_ratio : ℚ := 4
  animation_easing : Bool := true
  shift_horizontal : Bool := true
  horizontal_smoothness : Bool := true
  blacklist : List String := []
  per_app_settings : List (String × AppOverrides) := []
  enabled : Bool := true
deriving DecidableEq, Repr

/-- Dict lookup in `per_app_settings` (Python `key in dict` / `dict[key]`). -/
def findOverride : List (String × AppOverrides) → String → Option AppOverrides
  | [], _ => none
  | (k, v) :: rest, key => if k = key then some v else findOverride rest key

/-- The `base` dict built by `get_app_settings` from the global fields. -/
def ScrollSettings.globalParams (s : ScrollSettings) : AppParams :=
  { step_size := s.step_size
    animation_time := s.animation_time
    acceleration_delta := s.acceleration_delta
    acceleration_max := s.acceleration_max
    tail_head_ratio := s.tail_head_ratio }

/-- `base.update(app_overrides)`: each key present in the override replaces
the global value, field by field. -/
def applyOverrides (base : AppParams) (ov : AppOverrides) : AppParams :=
  { step_size := ov.step_size.getD base.step_size
    animation_time := ov.animation_time.getD base.animation_time
    acceleration_delta := ov.acceleration_delta.getD base.acceleration_delta
    acceleration_max := ov.acceleration_max.getD base.acceleration_max
    tail_head_ratio := ov.tail_head_ratio.getD base.tail_head_ratio }

/-- `ScrollSettings.get_app_settings` (src/config.py lines 48-66): the
global parameters as base; if `exe_name` is truthy (non-empty) and
`exe_name.lower()` is a key of `per_app_settings`, the override is applied
on top. -/
def ScrollSettings.get_app_settings (s : ScrollSettings) (exe_name : String) : AppParams :=
  if exe_name ≠ "" then
    match findOverride s.per_app_settings (strLower exe_name) with
    | some ov => applyOverrides s.globalParams ov
    | none => s.globalParams
  else s.globalParams

/-! ## Foreground-process resolution and blacklist
(`_is_foreground_blacklisted`, `_get_foreground_app_params`) -/

/-- The OS-side data the foreground queries observe for one event:
the foreground window handle (0 = `GetForegroundWindow` returned NULL),
the owning PID as written by `GetWindowThreadProcessId`, and the
executable name returned by `_get_process_name_by_pid` (already
lower-cased, `""` when the lookup failed). -/
structure Foreground where
  hwnd : ℕ
  pid : ℕ
  procName : String
deriving DecidableEq, Repr

/-- The executable name the per-event pipeline resolves
(`_get_foreground_app_params` body): empty when there is no foreground
window, when the PID is zero, or — transparently — when the process-name
lookup itself produced the empty string. -/
def foregroundExe (fg : Foreground) : String :=
  if fg.hwnd = 0 then ""
  else if fg.pid = 0 then ""
  else fg.procName

/-- `_is_foreground_blacklisted` (src/smooth_scroll_engine.py lines
425-445): early `False` returns for no window / zero PID / empty name,
then case-insensitive membership of the name in the blacklist. -/
def isForegroundBlacklisted (blacklist : List String) (fg : Foreground) : Bool :=
  if fg.hwnd = 0 then false
  else if fg.pid = 0 then false
  else if fg.procName = "" then false
  else (blacklist.map strLower).contains fg.procName

/-! ## Axis animator (`_animate_scroll`) -/

/-- The per-frame animator state for one axis during one run:
`current` is `_current_scroll_v` / `_current_scroll_h`, `remainder` is the
loop-local `accumulated_remainder`. -/
structure AxisRun where
  current : ℚ
  remainder : ℚ
deriving DecidableEq, Repr

/-- Total of the integer wheel deltas `_animate_scroll` emits from state
`s` onward, for a run with fixed target `T` and no further enqueues.

`frames` lists the eased value of each remaining iteration that has
`progress < 1.0` (in the source this value is `custom_ease(progress,
tail_ratio)`, or `progress` when easing is off); after those iterations
the loop reaches an iteration with `progress >= 1.0`, where the code sets
`progress = 1.0`, so `eased = 1` exactly, and where after the normal
per-frame emission the final residue `int(remaining - int_delta)` is
emitted and the loop exits.  Every iteration, final included, first checks
`abs(remaining) < 0.5` and exits without emitting when it holds. -/
def runEmit (T : ℚ) (s : AxisRun) : List ℚ → ℤ
  | [] =>
    if |T - s.current| < 1/2 then 0
    else
      let delta := T * 1 - s.current + s.remainder
      let d := truncQ delta
      d + truncQ (T - s.current - d)
  | e :: es =>
    if |T - s.current| < 1/2 then 0
    else
      let delta := T * e - s.current + s.remainder
      let d := truncQ delta
      d + runEmit T ⟨s.current + d, delta - d⟩ es

/-! ## Win32 constants (src/smooth_scroll_engine.py, top of file) -/

def WM_MOUSEWHEEL : ℕ := 0x020A
def WM_MOUSEHWHEEL : ℕ := 0x020E
def MOUSEEVENTF_WHEEL : ℕ := 0x0800
def MOUSEEVENTF_HWHEEL : ℕ := 0x1000

/-- `SmoothScrollEngine.INJECTED_FLAG`. -/
def INJECTED_FLAG : ℕ := 0xBEEF

/-! ## Engine mutable state -/

/-- The mutable fields of `SmoothScrollEngine` touched by the per-event
path, plus the list of synthetic events sent so far (`sent`, newest
last). -/
structure EngineSt where
  lastScrollTime : ℚ := 0
  velocity : ℚ := 1
  targetV : ℚ := 0
  currentV : ℚ := 0
  animatingV : Bool := false
  startV : ℚ := 0
  appParamsV : Option AppParams := none
  targetH : ℚ := 0
  currentH : ℚ := 0
  animatingH : Bool := false
  startH : ℚ := 0
  appParamsH : Option AppParams := none
  sent : List (ℤ × Bool) := []
deriving DecidableEq, Repr

/-- Per-event environment: what the OS-facing calls observe while the hook
callback handles one wheel event.  `nowMs` is `time.perf_counter() * 1000`
(milliseconds, used by the accelerator); `nowPerf` is `time.perf_counter()`
(seconds, recorded as the animation start time); `threadStartFails` models
`threading.Thread(...).start()` raising (e.g. `RuntimeError: can't start
new thread`). -/
structure Env where
  nowMs : ℚ := 0
  nowPerf : ℚ := 0
  ctrlPressed : Bool := false
  shiftPressed : Bool := false
  fg : Foreground := ⟨0, 0, ""⟩
  threadStartFails : Bool := false
deriving DecidableEq, Repr

/-! ## Accelerator (`_calculate_scroll_amount`, lines 467-499) -/

/-- `_calculate_scroll_amount`: returns the signed scroll amount and the
state with `_scroll_velocity` and `_last_scroll_time` updated.  `0.8` and
`300.0` are the source's literals. -/
def calculateScrollAmount (p : AppParams) (nowMs : ℚ) (st : EngineSt) (delta : ℤ) :
    ℚ × EngineSt :=
  let time_since_last := nowMs - st.lastScrollTime
  let direction : ℤ := if delta > 0 then 1 else -1
  let base_amount : ℚ := (p.step_size : ℚ) * (direction : ℚ)
  let velocity :=
    if time_since_last < (p.acceleration_delta : ℚ) then
      let accel_factor := 1 - time_since_last / (p.acceleration_delta : ℚ)
      min (st.velocity + accel_factor * (8/10)) p.acceleration_max
    else
      let decay := min (time_since_last / 300) 1
      max 1 (st.velocity * (1 - decay))
  (base_amount * velocity,
   { st with velocity := velocity, lastScrollTime := nowMs })

/-! ## Enqueue paths (`_add_smooth_scroll_v` / `_add_smooth_scroll_h`) -/

/-- `_add_smooth_scroll_v` (lines 501-531).  The reversal branch replaces
the target and resets velocity; otherwise the amount is added.  Starting
the animation thread may raise, which — absent any handler — propagates as
`Except.error`; the state mutations preceding the `start()` call have
already been applied when that happens, but the error discards them here
because the caller has no way to observe them through the raised
exception. -/
def addSmoothScrollV (env : Env) (st : EngineSt) (amount : ℚ)
    (app_params : Option AppParams) : Except Unit EngineSt :=
  let remaining := st.targetV - st.currentV
  let st1 :=
    if remaining ≠ 0 ∧ ¬((0 < amount) ↔ (0 < remaining)) then
      { st with targetV := amount, currentV := 0, velocity := 1 }
    else
      { st with targetV := st.targetV + amount }
  let st2 := { st1 with appParamsV := app_params }
  if st2.animatingV = false then
    if env.threadStartFails then Except.error ()
    else Except.ok { st2 with animatingV := true, currentV := 0, startV := env.nowPerf }
  else
    Except.ok { st2 with currentV := 0, startV := env.nowPerf }

/-- `_add_smooth_scroll_h` (lines 533-561), identical in structure. -/
def addSmoothScrollH (env : Env) (st : EngineSt) (amount : ℚ)
    (app_params : Option AppParams) : Except Unit EngineSt :=
  let remaining := st.targetH - st.currentH
  let st1 :=
    if remaining ≠ 0 ∧ ¬((0 < amount) ↔ (0 < remaining)) then
      { st with targetH := amount, currentH := 0, velocity := 1 }
    else
      { st with targetH := st.targetH + amount }
  let st2 := { st1 with appParamsH := app_params }
  if st2.animatingH = false then
    if env.threadStartFails then Except.error ()
    else Except.ok { st2 with animatingH := true, currentH := 0, startH := env.nowPerf }
  else
    Except.ok { st2 with currentH := 0, startH := env.nowPerf }

/-! ## Synthetic-event emission (`_send_scroll_event`, lines 673-685) -/

/-- One `INPUT` record as filled in by `_send_scroll_event`. -/
structure SentEvent where
  mouseData : ℕ
  dwFlags : ℕ
  dwExtraInfo : ℕ
deriving DecidableEq, Repr

/-- `_send_scroll_event`: `mouseData = delta & 0xFFFFFFFF`,
`dwFlags` selects the axis, `dwExtraInfo = INJECTED_FLAG`. -/
def sendScrollEvent (delta : ℤ) (horizontal : Bool) : SentEvent :=
  { mouseData := (delta % 2 ^ 32).toNat
    dwFlags := if horizontal then MOUSEEVENTF_HWHEEL else MOUSEEVENTF_WHEEL
    dwExtraInfo := INJECTED_FLAG }

/-! ## Hook callback (`_low_level_mouse_proc`, lines 337-391) -/

/-- The decoded `ctypes.c_short(mouseData >> 16).value`: the high word of
the 32-bit `mouseData`, reinterpreted as a signed 16-bit value. -/
def toSigned16 (mouseData : ℕ) : ℤ :=
  let m := (mouseData >>> 16) % 65536
  if m < 32768 then (m : ℤ) else (m : ℤ) - 65536

/-- One incoming hook invocation. -/
structure MouseEvent where
  nCode : ℤ
  wParam : ℕ
  mouseData : ℕ
  extraInfo : ℕ
deriving DecidableEq, Repr

/-- The two outcomes of the hook callback: `pass` is
`CallNextHookEx(...)`, `drop` is `return 1`. -/
inductive HookAction where
  | pass
  | drop
deriving DecidableEq, Repr

/-- `_low_level_mouse_proc`.  The body of the Python callback contains no
`try`/`except`, so an exception raised by any sub-step (here: thread
creation inside the enqueue path) propagates out of the callback; this is
the `Except.error` case. -/
def lowLevelMouseProc (s : ScrollSettings) (env : Env) (st : EngineSt)
    (ev : MouseEvent) : Except Unit (HookAction × EngineSt) :=
  if ev.nCode < 0 ∨ s.enabled = false then Except.ok (.pass, st)
  else if ev.wParam ≠ WM_MOUSEWHEEL ∧ ev.wParam ≠ WM_MOUSEHWHEEL then Except.ok (.pass, st)
  else if ev.extraInfo = INJECTED_FLAG then Except.ok (.pass, st)
  else if s.blacklist ≠ [] ∧ isForegroundBlacklisted s.blacklist env.fg then
    Except.ok (.pass, st)
  else if env.ctrlPressed then Except.ok (.pass, st)
  else
    let delta := toSigned16 ev.mouseData
    let isHorizontal0 : Bool := ev.wParam == WM_MOUSEHWHEEL
    let isHorizontal : Bool :=
      if s.shift_horizontal && !isHorizontal0 && env.shiftPressed then true else isHorizontal0
    let app_params := s.get_app_settings (foregroundExe env.fg)
    let (scroll_amount, st1) := calculateScrollAmount app_params env.nowMs st delta
    if isHorizontal && s.horizontal_smoothness then
      (addSmoothScrollH env st1 scroll_amount (some app_params)).map (fun st2 => (.drop, st2))
    else if isHorizontal then
      Except.ok (.drop,
        { st1 with sent := st1.sent ++ [(truncQ scroll_amount, true)] })
    else
      (addSmoothScrollV env st1 scroll_amount (some app_params)).map (fun st2 => (.drop, st2))

/-! ## Lifecycle (`start`, lines 258-268, and `_hook_loop`, lines 303-335) -/

/-- Outcome of `start()` followed by the hook thread running up to the
point where the hook is (or fails to be) installed: the `_running` flag
and the arguments of every `_on_status_change` invocation so far, in
order. -/
structure Lifecycle where
  running : Bool
  statusCalls : List Bool
deriving DecidableEq, Repr

/-- `start()` sets `_running = True`, spawns `_hook_loop`, and invokes the
status callback with `True`.  `_hook_loop`, on `SetWindowsHookExW`
returning NULL, prints an error, sets `_running = False` and returns —
invoking no callback. -/
def startEngine (installOk : Bool) : Lifecycle :=
  let afterStart : Lifecycle := { running := true, statusCalls := [true] }
  if installOk then afterStart
  else { afterStart with running := false }

/-! ## Concrete states used to instantiate the general theorems -/

/-- A state mid-animation on V (`target 50`, `current 10`) with pending
momentum `+30` on H and velocity `2`. -/
def exSt : EngineSt :=
  { targetV := 50, currentV := 10, animatingV := true, velocity := 2, targetH := 30 }

/-- An environment whose monotonic clock reads `7` at the enqueue. -/
def exEnv : Env := { nowPerf := 7 }

/-- The state `exSt` after a vertical reversal enqueue of `-5` at `exEnv`. -/
def exStV : EngineSt :=
  { velocity := 1, targetV := -5, currentV := 0, animatingV := true, startV := 7, targetH := 30 }

/-- The state `exSt` after a horizontal reversal enqueue of `-5` at `exEnv`. -/
def exStH : EngineSt :=
  { velocity := 1, targetV := 50, currentV := 10, animatingV := true, targetH := -5,
    currentH := 0, animatingH := true, startH := 7 }

/-! ## Easing kernel (`custom_ease`, lines 182-209), over ℝ -/

/-- The friction coefficient `k = 24.0 / (tail_ratio + 1.0)`, clamped
below at `0.001` (the `if k < 0.001: k = 0.001` guard). -/
noncomputable def easeK (tail_ratio : ℝ) : ℝ :=
  let k := 24 / (tail_ratio + 1)
  if k < 0.001 then 0.001 else k

/-- `custom_ease(t, tail_ratio)`: the normalized exponential ease-out
`(1 - e^(-k t)) / (1 - e^(-k))`. -/
noncomputable def custom_ease (t tail_ratio : ℝ) : ℝ :=
  (1 - Real.exp (-(easeK tail_ratio) * t)) / (1 - Real.exp (-(easeK tail_ratio)))

/-! ### Sub-pixel conservation bound -/

theorem truncQ_sub_lt_one (q : ℚ) : |q - truncQ q| < 1 := by
  unfold truncQ
  split
  · rw [abs_lt]
    constructor <;> · linarith [Int.floor_le q, Int.lt_floor_add_one q]
  · rw [abs_lt]
    constructor <;> · push_cast; linarith [Int.floor_le (-q), Int.lt_floor_add_one (-q)]

theorem runEmit_close (T : ℚ) : ∀ (frames : List ℚ) (s : AxisRun),
    |(s.current + (runEmit T s frames : ℚ)) - T| < 1 := by
  intro frames
  induction frames with
  | nil =>
    intro s
    unfold runEmit
    split
    · push_cast
      simp only [add_zero]
      rw [abs_sub_comm]
      linarith [abs_nonneg (T - s.current)]
    · have h := truncQ_sub_lt_one (T - s.current - truncQ (T * 1 - s.current + s.remainder))
      rw [abs_sub_comm]
      rw [abs_sub_lt_iff] at h ⊢
      push_cast at h ⊢
      constructor <;> linarith [h.1, h.2]
  | cons e es ih =>
    intro s
    unfold runEmit
    split
    · push_cast
      simp only [add_zero]
      rw [abs_sub_comm]
      linarith [abs_nonneg (T - s.current)]
    · have h := ih ⟨s.current + truncQ (T * e - s.current + s.remainder),
        (T * e - s.current + s.remainder) - truncQ (T * e - s.current + s.remainder)⟩
      simp only at h ⊢
      push_cast at h ⊢
      convert h using 2
      ring

theorem easeK_pos {r : ℝ} (hr : 0 < r) : 0 < easeK r := by
  unfold easeK
  dsimp only
  split
  · norm_num
  · positivity

theorem easeK_of_le {r : ℝ} (h0 : 0 < r) (h : r ≤ 23999) : easeK r = 24 / (r + 1) := by
  unfold easeK
  dsimp only
  rw [if_neg]
  rw [not_lt, le_div_iff₀ (by linarith)]
  nlinarith

theorem one_sub_exp_neg_pos {k : ℝ} (hk : 0 < k) : 0 < 1 - Real.exp (-k) := by
  have : Real.exp (-k) < 1 := Real.exp_lt_one_iff.mpr (by linarith)
  linarith

theorem custom_ease_zero (r : ℝ) : custom_ease 0 r = 0 := by
  unfold custom_ease
  simp

theorem custom_ease_one {r : ℝ} (hr : 0 < r) : custom_ease 1 r = 1 := by
  unfold custom_ease
  rw [mul_one, div_self (ne_of_gt (one_sub_exp_neg_pos (easeK_pos hr)))]

theorem custom_ease_strictMono {r : ℝ} (hr : 0 < r) {t1 t2 : ℝ} (h : t1 < t2) :
    custom_ease t1 r < custom_ease t2 r := by
  unfold custom_ease
  have hk := easeK_pos hr
  have hD := one_sub_exp_neg_pos hk
  rw [div_lt_div_iff_of_pos_right hD]
  have : -(easeK r) * t2 < -(easeK r) * t1 := by nlinarith
  have := Real.exp_lt_exp.mpr this
  linarith

theorem custom_ease_hasDerivAt (r t : ℝ) :
    HasDerivAt (fun u => custom_ease u r)
      (easeK r * Real.exp (-(easeK r) * t) / (1 - Real.exp (-(easeK r)))) t := by
  have h1 : HasDerivAt (fun u : ℝ => -(easeK r) * u) (-(easeK r)) t := by
    simpa using (hasDerivAt_id t).const_mul (-(easeK r))
  have h2 := h1.exp
  have h3 := h2.const_sub 1
  have h4 := h3.div_const (1 - Real.exp (-(easeK r)))
  unfold custom_ease
  convert h4 using 1
  ring

theorem deriv_custom_ease_at_one (r : ℝ) :
    deriv (fun t => custom_ease t r) 1 =
      easeK r * Real.exp (-(easeK r)) / (1 - Real.exp (-(easeK r))) := by
  have h := (custom_ease_hasDerivAt r 1).deriv
  rw [h, mul_one]

/-- Rewriting the end-slope `k e^(-k) / (1 - e^(-k))` as `k / (e^k - 1)`. -/
theorem endSlope_eq {k : ℝ} (hk : 0 < k) :
    k * Real.exp (-k) / (1 - Real.exp (-k)) = k / (Real.exp k - 1) := by
  have he : Real.exp k ≠ 0 := (Real.exp_pos k).ne'
  have h1 : 1 < Real.exp k := Real.one_lt_exp_iff.mpr hk
  have h2 : Real.exp k - 1 ≠ 0 := by linarith
  have h3 : 1 - (Real.exp k)⁻¹ ≠ 0 := by
    have : (Real.exp k)⁻¹ < 1 := by
      rw [inv_lt_one_iff₀]
      right; exact h1
    linarith
  rw [Real.exp_neg]
  field_simp

/-- Strict convexity of `exp` through its secants from distinct points:
for `0 < a < b`, `b (e^a - 1) < a (e^b - 1)`. -/
theorem exp_secant_lt {a b : ℝ} (ha : 0 < a) (hab : a < b) :
    b * (Real.exp a - 1) < a * (Real.exp b - 1) := by
  have hea : 0 < Real.exp a := Real.exp_pos a
  have h1 : (b - a) + 1 < Real.exp (b - a) := Real.add_one_lt_exp (by linarith)
  have h2 : (-a) + 1 ≤ Real.exp (-a) := Real.add_one_le_exp (-a)
  have hinv : Real.exp (-a) * Real.exp a = 1 := by
    rw [← Real.exp_add]; simp
  have h2' : (1 - a) * Real.exp a ≤ 1 := by
    have := mul_le_mul_of_nonneg_right h2 hea.le
    rw [hinv] at this
    linarith [this]
  have hint1 : (a * Real.exp a) * ((b - a) + 1) < (a * Real.exp a) * Real.exp (b - a) :=
    mul_lt_mul_of_pos_left h1 (mul_pos ha hea)
  have hint3 : (b - a) * ((1 - a) * Real.exp a) ≤ (b - a) * 1 :=
    mul_le_mul_of_nonneg_left h2' (by linarith)
  have hsplit : Real.exp b = Real.exp a * Real.exp (b - a) := by
    rw [← Real.exp_add]; ring_nf
  rw [hsplit]
  nlinarith [hint1, hint3]

/-- `k / (e^k - 1)` is strictly decreasing on `(0, ∞)`. -/
theorem endSlope_strictAnti {k1 k2 : ℝ} (h2 : 0 < k2) (h21 : k2 < k1) :
    k1 / (Real.exp k1 - 1) < k2 / (Real.exp k2 - 1) := by
  have e1 : 0 < Real.exp k1 - 1 := by
    have : 1 < Real.exp k1 := Real.one_lt_exp_iff.mpr (by linarith)
    linarith
  have e2 : 0 < Real.exp k2 - 1 := by
    have : 1 < Real.exp k2 := Real.one_lt_exp_iff.mpr h2
    linarith
  rw [div_lt_div_iff₀ e1 e2]
  exact exp_secant_lt h2 h21

/-- The end slope of `custom_ease` strictly increases with the tail ratio
as long as the `k`-clamp stays inactive (`r ≤ 23999`). -/
theorem deriv_custom_ease_lt {r1 r2 : ℝ} (h0 : 0 < r1) (h12 : r1 < r2) (h2 : r2 ≤ 23999) :
    deriv (fun t => custom_ease t r1) 1 < deriv (fun t => custom_ease t r2) 1 := by
  have hr2 : 0 < r2 := lt_trans h0 h12
  have hk1 : easeK r1 = 24 / (r1 + 1) := easeK_of_le h0 (by linarith)
  have hk2 : easeK r2 = 24 / (r2 + 1) := easeK_of_le hr2 h2
  have hk1p : 0 < easeK r1 := easeK_pos h0
  have hk2p : 0 < easeK r2 := easeK_pos hr2
  rw [deriv_custom_ease_at_one, deriv_custom_ease_at_one,
    endSlope_eq hk1p, endSlope_eq hk2p]
  apply endSlope_strictAnti hk2p
  rw [hk1, hk2]
  rw [div_lt_div_iff₀ (by linarith) (by linarith)]
  nlinarith

/-! ## Claim theorems -/

/-- C1 (amended): for every axis-animator run that begins with
`current = 0`, `remainder = 0` and a fixed signed target `T` (no further
enqueues) and that terminates, the sum of all integer wheel deltas emitted
during the run, including the final residue emitted at `progress ≥ 1.0`,
differs from `T` by strictly less than one wheel unit.  (It does not in
general equal `round(T)`: the final residue is truncated toward zero.) -/
theorem C1_subpixel_conservation (T : ℚ) (frames : List ℚ) :
    |((runEmit T ⟨0, 0⟩ frames : ℤ) : ℚ) - T| < 1 := by
  have h := runEmit_close T frames ⟨0, 0⟩
  simpa using h

/-- C1 counterexample: the run with target `T = 503/5 = 100.6` whose first
frame already has `progress ≥ 1.0` terminates after emitting `100 + 0`
wheel units, but `round(100.6) = 101`: the emitted sum is not
`round(T)`. -/
theorem C1_counterexample :
    runEmit (503/5) ⟨0, 0⟩ [] = 100 ∧ round ((503 : ℚ)/5) = 101 ∧
      runEmit (503/5) ⟨0, 0⟩ [] ≠ round ((503 : ℚ)/5) := by
  have h1 : runEmit (503/5) ⟨0, 0⟩ [] = 100 := by
    unfold runEmit
    rw [if_neg (by rw [abs_sub_lt_iff]; norm_num)]
    norm_num [truncQ]
  have h2 : round ((503 : ℚ)/5) = 101 := by rw [round_eq]; norm_num
  refine ⟨h1, h2, ?_⟩
  rw [h1, h2]
  decide

/-- C2: the claim says any exception during per-event processing is caught
and converted to PASS.  The body of `_low_level_mouse_proc` contains no
`try`/`except`, so when starting the vertical animation thread raises
(e.g. `RuntimeError: can't start new thread`), the exception propagates
out of the hook callback instead of the event being passed on: on a plain
vertical wheel detent the embedded callback returns `Except.error`,
not `Except.ok (pass, _)`. -/
theorem C2_exception_escapes :
    lowLevelMouseProc {} { threadStartFails := true }
      {} { nCode := 0, wParam := WM_MOUSEWHEEL, mouseData := 120 * 65536, extraInfo := 0 } =
      Except.error () := by
  simp only [lowLevelMouseProc, calculateScrollAmount, addSmoothScrollV,
    WM_MOUSEWHEEL, WM_MOUSEHWHEEL, INJECTED_FLAG]
  norm_num
  rfl

/-- C3 (amended): assuming `acceleration_max ≥ 1.0` and a current velocity
in `[1.0, acceleration_max]`, after a call to `_calculate_scroll_amount`
the shared velocity multiplier again lies in `[1.0, acceleration_max]`
(hence, starting from `1.0`, it lies there after every call); and whenever
the gap since the previous event is `≥ 300` ms **and**
`acceleration_delta ≤ 300` ms (so the decay branch is the one taken), the
velocity applied to that event is exactly `1.0`. -/
theorem C3_accelerator_bounds (p : AppParams) (nowMs : ℚ) (st : EngineSt) (delta : ℤ)
    (hd : 0 < p.acceleration_delta) (hmax : 1 ≤ p.acceleration_max)
    (hv1 : 1 ≤ st.velocity) (hv2 : st.velocity ≤ p.acceleration_max) :
    (1 ≤ ((calculateScrollAmount p nowMs st delta).2).velocity ∧
      ((calculateScrollAmount p nowMs st delta).2).velocity ≤ p.acceleration_max) ∧
    (300 ≤ nowMs - st.lastScrollTime → (p.acceleration_delta : ℚ) ≤ 300 →
      ((calculateScrollAmount p nowMs st delta).2).velocity = 1 ∧
      (calculateScrollAmount p nowMs st delta).1 =
        (p.step_size : ℚ) * ((if 0 < delta then (1 : ℤ) else -1) : ℚ)) := by
  have hdq : (0 : ℚ) < (p.acceleration_delta : ℚ) := by exact_mod_cast hd
  constructor
  · unfold calculateScrollAmount
    dsimp only
    split
    case isTrue h =>
      constructor
      · apply le_min _ hmax
        have hfac : 0 < 1 - (nowMs - st.lastScrollTime) / (p.acceleration_delta : ℚ) := by
          have := (div_lt_one hdq).mpr h
          linarith
        nlinarith
      · exact min_le_right _ _
    case isFalse h =>
      constructor
      · exact le_max_left _ _
      · apply max_le hmax
        have htsl : (0 : ℚ) < nowMs - st.lastScrollTime := lt_of_lt_of_le hdq (not_lt.mp h)
        have hdec : 0 < min ((nowMs - st.lastScrollTime) / 300) 1 := by
          apply lt_min _ one_pos
          positivity
        have hdec1 : min ((nowMs - st.lastScrollTime) / 300) 1 ≤ 1 := min_le_right _ _
        nlinarith
  · intro hgap hd300
    unfold calculateScrollAmount
    dsimp only
    rw [if_neg (by linarith)]
    have : min ((nowMs - st.lastScrollTime) / 300) 1 = 1 := by
      apply min_eq_right
      rw [le_div_iff₀ (by norm_num : (0:ℚ) < 300)]
      linarith
    rw [this]
    norm_num

/-- C3 witness: the defaults (`step 100, accel_delta 50, accel_max 3`),
velocity 1, a 400 ms gap. -/
theorem C3_accelerator_bounds_witness :
    (0 : ℤ) < 50 ∧ (1 : ℚ) ≤ 3 ∧ (1 : ℚ) ≤ 1 ∧ (1 : ℚ) ≤ 3 ∧
    ((1 ≤ ((calculateScrollAmount ⟨100, 400, 50, 3, 4⟩ 400 {} 120).2).velocity ∧
      ((calculateScrollAmount ⟨100, 400, 50, 3, 4⟩ 400 {} 120).2).velocity ≤ 3) ∧
    (300 ≤ (400 : ℚ) - ({} : EngineSt).lastScrollTime → ((50 : ℤ) : ℚ) ≤ 300 →
      ((calculateScrollAmount ⟨100, 400, 50, 3, 4⟩ 400 {} 120).2).velocity = 1 ∧
      (calculateScrollAmount ⟨100, 400, 50, 3, 4⟩ 400 {} 120).1 =
        ((100 : ℤ) : ℚ) * ((if (0 : ℤ) < 120 then (1 : ℤ) else -1) : ℚ))) := by
  refine ⟨by norm_num, by norm_num, by norm_num, by norm_num, ?_⟩
  exact C3_accelerator_bounds ⟨100, 400, 50, 3, 4⟩ 400 {} 120
    (by norm_num) (by norm_num) (by norm_num) (by norm_num)

/-- C3 counterexample: with `acceleration_delta = 400` (legal in an
imported configuration), a gap of 350 ms `≥ 300` still takes the
acceleration branch: the applied velocity is `1.1`, not `1.0`, and the
returned amount is `110`, not `100`. -/
theorem C3_counterexample :
    (300 : ℚ) ≤ 350 - ({} : EngineSt).lastScrollTime ∧
    ((calculateScrollAmount ⟨100, 400, 400, 3, 4⟩ 350 {} 120).2).velocity ≠ 1 ∧
    (calculateScrollAmount ⟨100, 400, 400, 3, 4⟩ 350 {} 120).1 = 110 := by
  refine ⟨by norm_num, ?_, ?_⟩ <;>
    norm_num [calculateScrollAmount, min_def, max_def]

/-- C4: for every enqueue of a signed scroll amount `A` on an axis whose
`target − current` is non-zero and of opposite sign to `A`, afterwards the
axis target equals `A`, current equals `0`, the shared velocity equals
`1.0`, and a new animation start time is recorded; the old momentum is
never summed into the new target.  (Stated for both the vertical and the
horizontal enqueue path.) -/
theorem C4_reversal_purity (env : Env) (st st' : EngineSt) (amount : ℚ)
    (ap : Option AppParams) :
    (((0 < amount ∧ st.targetV - st.currentV < 0) ∨
      (amount < 0 ∧ 0 < st.targetV - st.currentV)) →
      addSmoothScrollV env st amount ap = Except.ok st' →
      st'.targetV = amount ∧ st'.currentV = 0 ∧ st'.velocity = 1 ∧
        st'.startV = env.nowPerf) ∧
    (((0 < amount ∧ st.targetH - st.currentH < 0) ∨
      (amount < 0 ∧ 0 < st.targetH - st.currentH)) →
      addSmoothScrollH env st amount ap = Except.ok st' →
      st'.targetH = amount ∧ st'.currentH = 0 ∧ st'.velocity = 1 ∧
        st'.startH = env.nowPerf) := by
  constructor
  · intro h hok
    have hcond : st.targetV - st.currentV ≠ 0 ∧
        ¬((0 < amount) ↔ (0 < st.targetV - st.currentV)) := by
      rcases h with ⟨ha, hr⟩ | ⟨ha, hr⟩
      · exact ⟨ne_of_lt hr, fun hiff => absurd (hiff.mp ha) (by linarith)⟩
      · exact ⟨ne_of_gt hr, fun hiff => absurd (hiff.mpr hr) (by linarith)⟩
    simp only [addSmoothScrollV] at hok
    rw [if_pos hcond] at hok
    split_ifs at hok with h1 h2
    · injection hok with hok
      subst hok
      exact ⟨rfl, rfl, rfl, rfl⟩
    · injection hok with hok
      subst hok
      exact ⟨rfl, rfl, rfl, rfl⟩
  · intro h hok
    have hcond : st.targetH - st.currentH ≠ 0 ∧
        ¬((0 < amount) ↔ (0 < st.targetH - st.currentH)) := by
      rcases h with ⟨ha, hr⟩ | ⟨ha, hr⟩
      · exact ⟨ne_of_lt hr, fun hiff => absurd (hiff.mp ha) (by linarith)⟩
      · exact ⟨ne_of_gt hr, fun hiff => absurd (hiff.mpr hr) (by linarith)⟩
    simp only [addSmoothScrollH] at hok
    rw [if_pos hcond] at hok
    split_ifs at hok with h1 h2
    · injection hok with hok
      subst hok
      exact ⟨rfl, rfl, rfl, rfl⟩
    · injection hok with hok
      subst hok
      exact ⟨rfl, rfl, rfl, rfl⟩

/-- C4 witness: a concrete reversal on each axis (old momentum `+40`
vertical / `+30` horizontal, new amount `-5`; the V axis mid-animation,
the H axis idle). -/
theorem C4_reversal_purity_witness :
    ((-5 : ℚ) < 0 ∧ (0 : ℚ) < exSt.targetV - exSt.currentV ∧
      (0 : ℚ) < exSt.targetH - exSt.currentH) ∧
    (exStV.targetV = -5 ∧ exStV.currentV = 0 ∧ exStV.velocity = 1 ∧
      exStV.startV = exEnv.nowPerf) ∧
    (exStH.targetH = -5 ∧ exStH.currentH = 0 ∧ exStH.velocity = 1 ∧
      exStH.startH = exEnv.nowPerf) := by
  refine ⟨⟨by norm_num, by norm_num [exSt], by norm_num [exSt]⟩, ?_, ?_⟩
  · exact (C4_reversal_purity exEnv exSt exStV (-5) none).1
      (Or.inr ⟨by norm_num, by norm_num [exSt]⟩)
      (by norm_num [addSmoothScrollV, exSt, exStV, exEnv])
  · exact (C4_reversal_purity exEnv exSt exStH (-5) none).2
      (Or.inr ⟨by norm_num, by norm_num [exSt]⟩)
      (by norm_num [addSmoothScrollH, exSt, exStH, exEnv])

/-- C5 (amended): for the easing kernel as implemented (`custom_ease`,
with `k = 24/(r+1)` clamped below at `0.001`), the derivative of
`t ↦ ease(t, r)` at `t = 1` is strictly **increasing** as `r` grows while
the clamp is inactive: for all `0 < r1 < r2 ≤ 23999`, the end slope under
`r1` is strictly smaller than under `r2`.  (The claim's direction is
reversed: a larger tail ratio gives a flatter, more nearly linear curve,
whose slope at `t = 1` is larger.) -/
theorem C5_tail_derivative (r1 r2 : ℝ) (h0 : 0 < r1) (h12 : r1 < r2) (h2 : r2 ≤ 23999) :
    deriv (fun t => custom_ease t r1) 1 < deriv (fun t => custom_ease t r2) 1 :=
  deriv_custom_ease_lt h0 h12 h2

/-- C5 witness: `r1 = 1 < r2 = 3`. -/
theorem C5_tail_derivative_witness :
    (0 : ℝ) < 1 ∧ (1 : ℝ) < 3 ∧ (3 : ℝ) ≤ 23999 ∧
      deriv (fun t => custom_ease t 1) 1 < deriv (fun t => custom_ease t 3) 1 :=
  ⟨by norm_num, by norm_num, by norm_num,
    C5_tail_derivative 1 3 (by norm_num) (by norm_num) (by norm_num)⟩

/-- C5 counterexample: at `r1 = 1 < r2 = 3` the claimed strict decrease of
the end slope fails (the end slope under `r2 = 3` is not smaller than
under `r1 = 1`). -/
theorem C5_counterexample :
    ¬ (deriv (fun t => custom_ease t 3) 1 < deriv (fun t => custom_ease t 1) 1) :=
  lt_asymm (deriv_custom_ease_lt (by norm_num) (by norm_num) (by norm_num))

/-- C6 (amended): if installing the low-level mouse hook fails after
`start()` has been called, the engine marks itself stopped (the
`_running` flag becomes `false`), but the status callback is **not**
invoked with `false`: the only status-callback invocation is the one made
by `start()` with `true`. -/
theorem C6_hook_install_failure :
    (startEngine false).running = false ∧ (startEngine false).statusCalls = [true] := by
  decide

/-- C6 counterexample: on hook-install failure the running flag is
cleared, yet no status-callback invocation with `false` ever happens. -/
theorem C6_counterexample :
    (startEngine false).running = false ∧ false ∉ (startEngine false).statusCalls := by
  decide

/-- C7: for every tail ratio `r > 0`, the easing kernel satisfies
`ease(0, r) = 0` and `ease(1, r) = 1`, and for fixed `r` the map
`t ↦ ease(t, r)` is strictly increasing on `[0, 1]`. -/
theorem C7_easing_normalized (r : ℝ) (hr : 0 < r) :
    custom_ease 0 r = 0 ∧ custom_ease 1 r = 1 ∧
      ∀ t1 t2 : ℝ, 0 ≤ t1 → t1 < t2 → t2 ≤ 1 → custom_ease t1 r < custom_ease t2 r :=
  ⟨custom_ease_zero r, custom_ease_one hr,
    fun _ _ _ h _ => custom_ease_strictMono hr h⟩

/-- C7 witness: the default tail ratio `r = 4`. -/
theorem C7_easing_normalized_witness :
    (0 : ℝ) < 4 ∧ (custom_ease 0 4 = 0 ∧ custom_ease 1 4 = 1 ∧
      ∀ t1 t2 : ℝ, 0 ≤ t1 → t1 < t2 → t2 ≤ 1 → custom_ease t1 4 < custom_ease t2 4) :=
  ⟨by norm_num, C7_easing_normalized 4 (by norm_num)⟩

/-- C8: resolving parameters for an executable name returns the global
defaults of the five scroll parameters with any overrides stored under
`per_app_settings[lower(E)]` applied on top field by field
(`applyOverrides`); for an unknown or empty `E` the global defaults are
returned unchanged. -/
theorem C8_per_app_resolution (s : ScrollSettings) (exe : String) :
    (exe = "" → s.get_app_settings exe = s.globalParams) ∧
    (findOverride s.per_app_settings (strLower exe) = none →
      s.get_app_settings exe = s.globalParams) ∧
    (∀ ov, exe ≠ "" → findOverride s.per_app_settings (strLower exe) = some ov →
      s.get_app_settings exe = applyOverrides s.globalParams ov) := by
  refine ⟨?_, ?_, ?_⟩
  · intro h
    unfold ScrollSettings.get_app_settings
    rw [if_neg (fun hne => hne h)]
  · intro h
    unfold ScrollSettings.get_app_settings
    split
    · rw [h]
    · rfl
  · intro ov hne hov
    unfold ScrollSettings.get_app_settings
    rw [if_pos hne, hov]

/-- C8 witness: a sparse override `{step_size := 120}` for
`notepad.exe`; resolving for `"NOTEPAD.EXE"` applies it on top of the
globals, and resolving for the empty name returns the globals. -/
theorem C8_per_app_resolution_witness :
    (("" : String) = "" ∧
      ScrollSettings.get_app_settings
        { per_app_settings := [("notepad.exe", { step_size := some 120 })] } "" =
        ScrollSettings.globalParams
          { per_app_settings := [("notepad.exe", { step_size := some 120 })] }) ∧
    (("NOTEPAD.EXE" : String) ≠ "" ∧
      findOverride [("notepad.exe", ({ step_size := some 120 } : AppOverrides))]
        (strLower "NOTEPAD.EXE") = some { step_size := some 120 } ∧
      ScrollSettings.get_app_settings
        { per_app_settings := [("notepad.exe", { step_size := some 120 })] } "NOTEPAD.EXE" =
        applyOverrides
          (ScrollSettings.globalParams
            { per_app_settings := [("notepad.exe", { step_size := some 120 })] })
          { step_size := some 120 }) := by
  refine ⟨⟨rfl, ?_⟩, ⟨by decide, by decide, ?_⟩⟩
  · exact (C8_per_app_resolution
      { per_app_settings := [("notepad.exe", { step_size := some 120 })] } "").1 rfl
  · exact (C8_per_app_resolution
      { per_app_settings := [("notepad.exe", { step_size := some 120 })] }
      "NOTEPAD.EXE").2.2 { step_size := some 120 } (by decide) (by decide)

/-- C9: every synthetic wheel event emitted by the engine carries the
self-injection marker `0xBEEF` in its extra-info field, and every incoming
wheel event whose extra-info field equals the marker is passed to the next
hook unconditionally, leaving the accelerator and animator state
unchanged. -/
theorem C9_injection_marker :
    (∀ (delta : ℤ) (horizontal : Bool),
      (sendScrollEvent delta horizontal).dwExtraInfo = INJECTED_FLAG) ∧
    (∀ (s : ScrollSettings) (env : Env) (st : EngineSt) (ev : MouseEvent),
      (ev.wParam = WM_MOUSEWHEEL ∨ ev.wParam = WM_MOUSEHWHEEL) →
      ev.extraInfo = INJECTED_FLAG →
      lowLevelMouseProc s env st ev = Except.ok (.pass, st)) := by
  constructor
  · intro delta horizontal
    rfl
  · intro s env st ev hw hm
    unfold lowLevelMouseProc
    by_cases hc : ev.nCode < 0 ∨ s.enabled = false
    · rw [if_pos hc]
    · rw [if_neg hc, if_neg (fun h => hw.elim h.1 h.2), if_pos hm]

/-- C9 witness: a marker-tagged vertical wheel event on a default-settings
engine is passed through with the state untouched. -/
theorem C9_injection_marker_witness :
    (sendScrollEvent 5 false).dwExtraInfo = INJECTED_FLAG ∧
    lowLevelMouseProc {} {} {}
      { nCode := 0, wParam := WM_MOUSEWHEEL, mouseData := 0, extraInfo := INJECTED_FLAG } =
      Except.ok (.pass, {}) :=
  ⟨C9_injection_marker.1 5 false,
    C9_injection_marker.2 {} {} {}
      { nCode := 0, wParam := WM_MOUSEWHEEL, mouseData := 0, extraInfo := INJECTED_FLAG }
      (Or.inl rfl) rfl⟩

/-- C10: whenever the foreground executable name resolves to the empty
string (no foreground window, zero PID, or a failed process-name lookup),
the blacklist check returns `false` — even if the blacklist contains the
empty string. -/
theorem C10_empty_exe_not_blacklisted (bl : List String) (fg : Foreground)
    (h : foregroundExe fg = "") : isForegroundBlacklisted bl fg = false := by
  unfold foregroundExe at h
  unfold isForegroundBlacklisted
  split_ifs at h ⊢ <;> simp_all

/-- C10 witness: no foreground window (`hwnd = 0`) while the blacklist
contains the empty string. -/
theorem C10_empty_exe_not_blacklisted_witness :
    foregroundExe ⟨0, 7, "x.exe"⟩ = "" ∧
      isForegroundBlacklisted [""] ⟨0, 7, "x.exe"⟩ = false :=
  ⟨rfl, C10_empty_exe_not_blacklisted [""] ⟨0, 7, "x.exe"⟩ rfl⟩
